import Mathlib

/-!
Verification of the container lifecycle manager (`container_api/src/container.rs`)
and the get-entry workflows (`core/src/workflows/get_entry_result.rs`) of the
holochain-rust repository, as a shallow embedding in Lean 4.

The configuration type and its consistency checker (`config.rs`) and the
per-instance `Holochain` handle (`holochain.rs`) are not part of the provided
sources; they are modelled from the specification where noted.
-/

/-! ## Configuration data model -/

/-- An agent entry of the configuration (`AgentConfiguration` in `config.rs`,
modelled from the spec's Agent record). -/
structure AgentConfiguration where
  id : String
  name : String
  public_address : String
  key_file : String
deriving DecidableEq

/-- A DNA (module) entry of the configuration. -/
structure DnaConfiguration where
  id : String
  file : String
  hash : String
deriving DecidableEq

/-- Storage descriptor of an instance: memory or file-backed. -/
inductive StorageConfiguration where
  | memory
  | file (path : String)
deriving DecidableEq

/-- An instance entry: a binding of a DNA to an agent plus storage. -/
structure InstanceConfiguration where
  id : String
  dna : String
  agent : String
  storage : StorageConfiguration
deriving DecidableEq

/-- A bridge: a directed call edge from caller instance to callee instance. -/
structure Bridge where
  caller_id : String
  callee_id : String
  handle : String
deriving DecidableEq

/-- An RPC transport driver descriptor. -/
inductive InterfaceDriver where
  | websocket (port : Nat)
  | http (port : Nat)
deriving DecidableEq

/-- Reference to an instance inside an interface descriptor. -/
structure InstanceReferenceConfiguration where
  id : String
deriving DecidableEq

/-- An interface descriptor: transport plus the subset of exposed instances. -/
structure InterfaceConfiguration where
  id : String
  driver : InterfaceDriver
  instances : List InstanceReferenceConfiguration
deriving DecidableEq

/-- The optional network descriptor used to spawn the external P2P helper. -/
structure NetworkConfig where
  bootstrap_nodes : List String
  n3h_path : String
  n3h_mode : String
  n3h_persistence_path : String
  n3h_ipc_uri : Option String
deriving DecidableEq

/-- Logger selection of the configuration. -/
structure LoggerConfiguration where
  logger_type : String
deriving DecidableEq

/-- The aggregate declarative configuration document. -/
structure Configuration where
  agents : List AgentConfiguration
  dnas : List DnaConfiguration
  instances : List InstanceConfiguration
  interfaces : List InterfaceConfiguration
  bridges : List Bridge
  network : Option NetworkConfig
  logger : LoggerConfiguration
deriving DecidableEq

/-! ## Generic helpers: boolean membership and association-list lookup -/

/-- Boolean membership test on lists of strings. -/
def memB (x : String) : List String → Bool
  | [] => false
  | y :: ys => if x = y then true else memB x ys

theorem memB_iff (x : String) (l : List String) : memB x l = true ↔ x ∈ l := by
  induction l with
  | nil => simp [memB]
  | cons y ys ih =>
    simp only [memB, List.mem_cons]
    split
    · simp_all
    · simp [ih]; intro h; simp_all

/-- Lookup in an assoc list keyed by strings (the `HashMap` of the source,
determinized to insertion order). -/
def lookupId {β : Type} (id : String) : List (String × β) → Option β
  | [] => none
  | (k, v) :: rest => if k = id then some v else lookupId id rest

theorem lookupId_isSome_of_mem {β : Type} (id : String) (l : List (String × β))
    (h : id ∈ l.map Prod.fst) : ∃ v, lookupId id l = some v := by
  induction l with
  | nil => simp at h
  | cons p rest ih =>
    simp only [List.map_cons, List.mem_cons] at h
    by_cases hk : p.1 = id
    · exact ⟨p.2, by simp [lookupId, hk]⟩
    · have : id ∈ rest.map Prod.fst := by
        rcases h with h | h
        · exact absurd h.symm hk
        · exact h
      rcases ih this with ⟨v, hv⟩
      exact ⟨v, by simp [lookupId, hk, hv]⟩

/-- Generic `find?` by a string projection, used for the configuration's
read-side lookups (`instance_by_id` and friends). -/
def findById {α : Type} (proj : α → String) (id : String) (l : List α) : Option α :=
  l.find? (fun x => proj x == id)

theorem findById_mem {α : Type} (proj : α → String) (id : String) (l : List α)
    (h : id ∈ l.map proj) : ∃ a, findById proj id l = some a ∧ proj a = id ∧ a ∈ l := by
  rcases List.mem_map.mp h with ⟨a, ha, rfl⟩
  cases hf : findById proj (proj a) l with
  | none =>
    have := List.find?_eq_none.mp hf a ha
    simp at this
  | some b =>
    refine ⟨b, rfl, ?_, List.mem_of_find?_eq_some hf⟩
    have := List.find?_some hf
    simpa using this

/-! ## Configuration lookups (modelled from the spec, section 4.C) -/

/-- Modelled from the spec: `instance_by_id` read-side lookup of `config.rs`. -/
def instance_by_id (cfg : Configuration) (id : String) : Option InstanceConfiguration :=
  findById (fun i => i.id) id cfg.instances

/-- Modelled from the spec: `agent_by_id` read-side lookup of `config.rs`. -/
def agent_by_id (cfg : Configuration) (id : String) : Option AgentConfiguration :=
  findById (fun a => a.id) id cfg.agents

/-- Modelled from the spec: `dna_by_id` read-side lookup of `config.rs`. -/
def dna_by_id (cfg : Configuration) (id : String) : Option DnaConfiguration :=
  findById (fun d => d.id) id cfg.dnas

/-- Modelled from the spec: `interface_by_id` read-side lookup of `config.rs`. -/
def interface_by_id (cfg : Configuration) (id : String) : Option InterfaceConfiguration :=
  findById (fun i => i.id) id cfg.interfaces

/-- Modelled from the spec: `bridge_dependencies` of `config.rs`, the bridges
where the given instance is the caller. -/
def bridge_dependencies (cfg : Configuration) (id : String) : List Bridge :=
  cfg.bridges.filter (fun b => b.caller_id == id)

/-- The instance ids an instance depends on through bridges (its callees). -/
def depsOf (cfg : Configuration) (id : String) : List String :=
  (bridge_dependencies cfg id).map (fun b => b.callee_id)

/-- The declared instance ids of a configuration. -/
def instanceIds (cfg : Configuration) : List String :=
  cfg.instances.map (fun i => i.id)

/-- The declared agent ids of a configuration. -/
def agentIds (cfg : Configuration) : List String :=
  cfg.agents.map (fun a => a.id)

/-- The declared DNA ids of a configuration. -/
def dnaIds (cfg : Configuration) : List String :=
  cfg.dnas.map (fun d => d.id)

/-- The declared interface ids of a configuration. -/
def interfaceIds (cfg : Configuration) : List String :=
  cfg.interfaces.map (fun i => i.id)

/-! ## Topological sort of the bridge graph (modelled from the spec, 4.C) -/

/-- An instance may be emitted when all its bridge callees have been emitted. -/
def eligible (cfg : Configuration) (emitted : List String) (id : String) : Bool :=
  (depsOf cfg id).all (fun d => memB d emitted)

/-- Lexicographic comparison of character lists (by code point). -/
def charListLt : List Char → List Char → Bool
  | [], [] => false
  | [], _ :: _ => true
  | _ :: _, [] => false
  | c :: cs, d :: ds =>
    if c.toNat < d.toNat then true
    else if d.toNat < c.toNat then false
    else charListLt cs ds

/-- Lexicographic order on strings (the id order used for tie-breaking). -/
def strLt (a b : String) : Bool := charListLt a.data b.data

/-- Lexicographically least element of a nonempty candidate pool. -/
def foldMin (x : String) (xs : List String) : String :=
  xs.foldl (fun m y => if strLt y m then y else m) x

/-- Pick the lexicographically least remaining instance whose callees are all
already emitted, if one exists. -/
def pickMin (cfg : Configuration) (emitted remaining : List String) : Option String :=
  match remaining.filter (eligible cfg emitted) with
  | [] => none
  | x :: xs => some (foldMin x xs)

/-- Modelled from the spec: Kahn-style topological sort with lexicographic
tie-break; `emitted` holds the already-ordered ids, latest first. -/
def topoSortFuel (cfg : Configuration) : Nat → List String → List String → Option (List String)
  | _, emitted, [] => some emitted.reverse
  | 0, _, _ :: _ => none
  | n + 1, emitted, r :: rs =>
    match pickMin cfg emitted (r :: rs) with
    | none => none
    | some id => topoSortFuel cfg n (id :: emitted) ((r :: rs).erase id)

/-- Modelled from the spec: `instance_ids_sorted_by_bridge_dependencies` of
`config.rs`, the ordered instance ids in which callees precede their callers. -/
def instance_ids_sorted_by_bridge_dependencies (cfg : Configuration) :
    Except String (List String) :=
  match topoSortFuel cfg (instanceIds cfg).length [] (instanceIds cfg) with
  | some order => .ok order
  | none => .error "Cyclic dependency in bridge configuration"

/-- No duplicates among a list of ids, as a boolean check. -/
def nodupB : List String → Bool
  | [] => true
  | x :: xs => !(memB x xs) && nodupB xs

/-- Reference-integrity check of the configuration: instance fields resolve,
bridge endpoints are distinct declared instances, interface subsets resolve. -/
def refOkB (cfg : Configuration) : Bool :=
  cfg.instances.all (fun i => memB i.dna (dnaIds cfg) && memB i.agent (agentIds cfg)) &&
  cfg.bridges.all (fun b =>
    memB b.caller_id (instanceIds cfg) && memB b.callee_id (instanceIds cfg) &&
    !(b.caller_id == b.callee_id)) &&
  cfg.interfaces.all (fun ifc => ifc.instances.all (fun r => memB r.id (instanceIds cfg)))

/-- Duplicate-id check over every id kind. -/
def dupOkB (cfg : Configuration) : Bool :=
  nodupB (agentIds cfg) && nodupB (dnaIds cfg) && nodupB (instanceIds cfg) &&
  nodupB (interfaceIds cfg)

/-- Modelled from the spec: `Configuration::check_consistency` of `config.rs`.
Validates reference integrity, duplicate ids and bridge acyclicity, and
returns the topological order of instance ids (callees before callers). -/
def check_consistency (cfg : Configuration) : Except String (List String) :=
  if refOkB cfg && dupOkB cfg then
    instance_ids_sorted_by_bridge_dependencies cfg
  else
    .error "configuration consistency check failed"

/-! ## Facts about the topological sort -/

theorem foldMin_mem (x : String) (xs : List String) : foldMin x xs = x ∨ foldMin x xs ∈ xs := by
  induction xs generalizing x with
  | nil => exact Or.inl rfl
  | cons y ys ih =>
    have heq : foldMin x (y :: ys) = foldMin (if strLt y x then y else x) ys := rfl
    rw [heq]
    rcases ih (if strLt y x then y else x) with h | h
    · rw [h]
      split
      · exact Or.inr (List.mem_cons_self _ _)
      · exact Or.inl rfl
    · exact Or.inr (List.mem_cons_of_mem _ h)

theorem pickMin_spec (cfg : Configuration) (emitted remaining : List String) (id : String)
    (h : pickMin cfg emitted remaining = some id) :
    id ∈ remaining ∧ ∀ d ∈ depsOf cfg id, d ∈ emitted := by
  unfold pickMin at h
  cases hf : remaining.filter (eligible cfg emitted) with
  | nil => rw [hf] at h; exact absurd h (by simp)
  | cons x xs =>
    rw [hf] at h
    have hid : id = foldMin x xs := by
      simpa using h.symm
    have hmem : id ∈ x :: xs := by
      rw [hid]
      rcases foldMin_mem x xs with h' | h'
      · rw [h']; exact List.mem_cons_self _ _
      · exact List.mem_cons_of_mem _ h'
    have : id ∈ remaining.filter (eligible cfg emitted) := hf ▸ hmem
    have hfm := List.mem_filter.mp this
    refine ⟨hfm.1, ?_⟩
    intro d hd
    have := List.all_eq_true.mp hfm.2 d hd
    exact (memB_iff d emitted).mp this

theorem topoSortFuel_mem (cfg : Configuration) (n : Nat) (emitted remaining out : List String)
    (h : topoSortFuel cfg n emitted remaining = some out) :
    ∀ x, x ∈ out ↔ x ∈ emitted ∨ x ∈ remaining := by
  induction n generalizing emitted remaining with
  | zero =>
    cases remaining with
    | nil =>
      simp only [topoSortFuel] at h
      intro x
      have : out = emitted.reverse := by simpa using h.symm
      simp [this]
    | cons r rs => exact absurd h (by simp [topoSortFuel])
  | succ n ih =>
    cases remaining with
    | nil =>
      simp only [topoSortFuel] at h
      intro x
      have : out = emitted.reverse := by simpa using h.symm
      simp [this]
    | cons r rs =>
      simp only [topoSortFuel] at h
      cases hp : pickMin cfg emitted (r :: rs) with
      | none => rw [hp] at h; exact absurd h (by simp)
      | some id =>
        rw [hp] at h
        have hid := pickMin_spec cfg emitted (r :: rs) id hp
        have hrec := ih (id :: emitted) ((r :: rs).erase id) h
        intro x
        rw [hrec x]
        constructor
        · rintro (hx | hx)
          · rcases List.mem_cons.mp hx with rfl | hx
            · exact Or.inr hid.1
            · exact Or.inl hx
          · exact Or.inr (List.mem_of_mem_erase hx)
        · rintro (hx | hx)
          · exact Or.inl (List.mem_cons_of_mem _ hx)
          · by_cases hxy : x = id
            · subst hxy; exact Or.inl (List.mem_cons_self _ _)
            · exact Or.inr ((List.mem_erase_of_ne hxy).mpr hx)

/-- The emitted list, latest first, always has each element's callees strictly
later in the list (i.e. earlier in emission order). -/
def goodRev (cfg : Configuration) : List String → Prop
  | [] => True
  | id :: rest => (∀ d ∈ depsOf cfg id, d ∈ rest) ∧ goodRev cfg rest

theorem topoSortFuel_good (cfg : Configuration) (n : Nat)
    (emitted remaining out : List String)
    (h : topoSortFuel cfg n emitted remaining = some out) (hg : goodRev cfg emitted) :
    ∃ l, goodRev cfg l ∧ out = l.reverse := by
  induction n generalizing emitted remaining with
  | zero =>
    cases remaining with
    | nil =>
      simp only [topoSortFuel] at h
      exact ⟨emitted, hg, by simpa using h.symm⟩
    | cons r rs => exact absurd h (by simp [topoSortFuel])
  | succ n ih =>
    cases remaining with
    | nil =>
      simp only [topoSortFuel] at h
      exact ⟨emitted, hg, by simpa using h.symm⟩
    | cons r rs =>
      simp only [topoSortFuel] at h
      cases hp : pickMin cfg emitted (r :: rs) with
      | none => rw [hp] at h; exact absurd h (by simp)
      | some id =>
        rw [hp] at h
        have hid := pickMin_spec cfg emitted (r :: rs) id hp
        exact ih (id :: emitted) ((r :: rs).erase id) h ⟨hid.2, hg⟩

theorem goodRev_split (cfg : Configuration) (l a b : List String) (x : String)
    (hg : goodRev cfg l) (he : l = a ++ x :: b) : ∀ d ∈ depsOf cfg x, d ∈ b := by
  induction a generalizing l with
  | nil =>
    subst he
    exact hg.1
  | cons y ys ih =>
    subst he
    exact ih (ys ++ x :: b) hg.2 rfl

/-- Every decomposition of an accepted topological order puts each instance's
callees inside the strict prefix. -/
theorem order_decomp_deps (cfg : Configuration) (order pre post : List String) (x : String)
    (h : instance_ids_sorted_by_bridge_dependencies cfg = .ok order)
    (hd : order = pre ++ x :: post) : ∀ d ∈ depsOf cfg x, d ∈ pre := by
  unfold instance_ids_sorted_by_bridge_dependencies at h
  cases ht : topoSortFuel cfg (instanceIds cfg).length [] (instanceIds cfg) with
  | none => rw [ht] at h; exact absurd h (by simp)
  | some out =>
    rw [ht] at h
    have hout : out = order := by simpa using h
    subst hout
    rcases topoSortFuel_good cfg _ [] (instanceIds cfg) out ht trivial with ⟨l, hg, hrev⟩
    have hl : l = post.reverse ++ x :: pre.reverse := by
      have : l.reverse.reverse = (pre ++ x :: post).reverse := by rw [← hrev, hd]
      rw [List.reverse_reverse] at this
      rw [this]
      simp [List.reverse_append]
    intro d hdep
    have := goodRev_split cfg l post.reverse pre.reverse x hg hl d hdep
    exact List.mem_reverse.mp this

theorem order_mem_iff (cfg : Configuration) (order : List String)
    (h : instance_ids_sorted_by_bridge_dependencies cfg = .ok order) :
    ∀ x, x ∈ order ↔ x ∈ instanceIds cfg := by
  unfold instance_ids_sorted_by_bridge_dependencies at h
  cases ht : topoSortFuel cfg (instanceIds cfg).length [] (instanceIds cfg) with
  | none => rw [ht] at h; exact absurd h (by simp)
  | some out =>
    rw [ht] at h
    have hout : out = order := by simpa using h
    subst hout
    intro x
    rw [topoSortFuel_mem cfg _ [] (instanceIds cfg) out ht x]
    simp

/-! ## Container state model (`container.rs`) -/

/-- A DNA artifact produced by the loader; opaque to the container. -/
abbrev Dna := String

/-- Modelled from the spec: a running instance handle (`Holochain` in
`holochain.rs`, not under the provided sources). Its start/stop behaviour is
abstracted by failure scripts; `active` tracks the started state. -/
structure Holochain where
  active : Bool
  start_fails : Bool
  stop_fails : Bool
  err : String
deriving DecidableEq

/-- Modelled from the spec: `Holochain::start`, which transitions the instance
to running or reports an instance error. -/
def Holochain.start (hc : Holochain) : Except String Holochain :=
  if hc.start_fails then .error hc.err else .ok { hc with active := true }

/-- Modelled from the spec: `Holochain::stop`. -/
def Holochain.stop (hc : Holochain) : Except String Holochain :=
  if hc.stop_fails then .error hc.err else .ok { hc with active := false }

/-- The per-instance context assembled by the context builder. -/
structure Context where
  agent_name : String
  agent_key : Nat
  p2p_config : String
  storage : StorageConfiguration
  channel_logger : Bool
  bridge_handles : List (String × String)
  has_signal : Bool
deriving DecidableEq

/-- Injected collaborators of the container: the DNA loader, the key parser,
the file-storage builder, instance construction, and the IPC process spawner. -/
structure Env where
  keyParse : String → Except String Nat
  fileStorage : String → Except String Unit
  dnaLoader : String → Except Unit Dna
  holochainNew : Dna → Context → Except String Holochain
  ipcSpawn : NetworkConfig → Except String String

/-- Observable side effects of container operations. -/
inductive Event where
  | loadDna (file : String)
  | spawnNet
  | killNet
deriving DecidableEq

/-- Container errors: ordinary `Result` errors versus panics of the source
(`unwrap`, `expect`, `assert`), which are kept distinct. -/
inductive CErr where
  | str (msg : String)
  | fatal (msg : String)
deriving DecidableEq

/-- The container's mutable state (`Container` in `container.rs`). The
instance registry and interface worker map are determinized to
insertion-ordered association lists; worker handles are numbered tokens. -/
structure ContainerState where
  instances : List (String × Holochain)
  config : Configuration
  interface_threads : List (String × Nat)
  signal_tx : Bool
  p2p_config : Option String
  network_child_process : Bool
  next_worker : Nat
deriving DecidableEq

/-- `Container::from_config`: fresh container with empty registry, no signal
channel, no cached P2P config and no helper process. -/
def from_config (cfg : Configuration) : ContainerState :=
  { instances := [], config := cfg, interface_threads := [], signal_tx := false,
    p2p_config := none, network_child_process := false, next_worker := 0 }

/-- `Container::with_signal_channel`: panics (`none`) when the registry is
nonempty, otherwise records the signal sender. -/
def with_signal_channel (s : ContainerState) : Option ContainerState :=
  if s.instances.isEmpty then some { s with signal_tx := true } else none

/-- `Container::instance_p2p_config`: the cached container-wide P2P config, or
the named default mock when called before initialization. -/
def instance_p2p_config (s : ContainerState) : String :=
  s.p2p_config.getD "named-mock:container-default-mock"

/-- `Container::spawn_network`: spawn the external helper through `ipc_spawn`,
record the kill handle on success and return the advertised IPC binding. -/
def spawn_network (env : Env) (s : ContainerState) :
    Except String String × ContainerState × List Event :=
  match s.config.network with
  | none => (.error "attempt to spawn network when not configured", s, [])
  | some net =>
    match env.ipcSpawn net with
    | .error e => (.error e, s, [Event.spawnNet])
    | .ok binding => (.ok binding, { s with network_child_process := true }, [Event.spawnNet])

/-- Rendering of the IPC backend config JSON produced for instances. -/
def ipcJson (net : NetworkConfig) (uri : Option String) : String :=
  "backend_kind:IPC;bootstrap:" ++ String.intercalate "," net.bootstrap_nodes ++
    ";ipcUri:" ++ uri.getD "null"

/-- `Container::initialize_p2p_config` (body of the first-load branch): use the
explicit IPC uri if configured, otherwise spawn the helper; without a network
descriptor produce a unique mock config. -/
def init_p2p_config (env : Env) (s : ContainerState) :
    String × ContainerState × List Event :=
  match s.config.network with
  | none => ("unique-mock", s, [])
  | some net =>
    match net.n3h_ipc_uri with
    | some uri => (ipcJson net (some uri), s, [])
    | none =>
      match spawn_network env s with
      | (.ok binding, s', evs) => (ipcJson net (some binding), s', evs)
      | (.error _, s', evs) => (ipcJson net none, s', evs)

/-- Fold of `start()` over the registry in iteration order; the first failure
aborts the fold, leaving earlier instances started (`iter_mut` + `collect`). -/
def startAllList : List (String × Holochain) → Option String × List (String × Holochain)
  | [] => (none, [])
  | (id, hc) :: rest =>
    match hc.start with
    | .error e => (some e, (id, hc) :: rest)
    | .ok hc' =>
      let r := startAllList rest
      (r.1, (id, hc') :: r.2)

/-- Fold of `stop()` over the registry in iteration order. -/
def stopAllList : List (String × Holochain) → Option String × List (String × Holochain)
  | [] => (none, [])
  | (id, hc) :: rest =>
    match hc.stop with
    | .error e => (some e, (id, hc) :: rest)
    | .ok hc' =>
      let r := stopAllList rest
      (r.1, (id, hc') :: r.2)

/-- `Container::start_all_instances`. -/
def start_all_instances (s : ContainerState) : Except String Unit × ContainerState :=
  let r := startAllList s.instances
  match r.1 with
  | some e => (.error e, { s with instances := r.2 })
  | none => (.ok (), { s with instances := r.2 })

/-- `Container::stop_all_instances`. -/
def stop_all_instances (s : ContainerState) : Except String Unit × ContainerState :=
  let r := stopAllList s.instances
  match r.1 with
  | some e => (.error e, { s with instances := r.2 })
  | none => (.ok (), { s with instances := r.2 })

/-- `Container::shutdown`: stop all instances, then clear the registry. -/
def shutdown (s : ContainerState) : Except String Unit × ContainerState :=
  match stop_all_instances s with
  | (.error e, s') => (.error e, s')
  | (.ok _, s') => (.ok (), { s' with instances := [] })

/-- The dna file referenced by an instance id, through its instance and DNA
configuration entries. -/
def dnaFileOf (cfg : Configuration) (id : String) : Option String :=
  (instance_by_id cfg id).bind (fun ic => (dna_by_id cfg ic.dna).map (fun d => d.file))

/-- The bridge wiring loop of `instantiate_from_config`: for every bridge the
instance declares as caller, look up the callee configuration (`expect`) and
the already-constructed callee instance in the registry (`expect`), and record
the handle binding. Panics are `CErr.fatal`. -/
def buildBridges (cfg : Configuration) (registry : List (String × Holochain)) :
    List Bridge → Except CErr (List (String × String))
  | [] => .ok []
  | b :: rest =>
    match instance_by_id cfg b.callee_id with
    | none => .error (.fatal "config.check_consistency()? jumps out if config is broken")
    | some _ =>
      match lookupId b.callee_id registry with
      | none => .error (.fatal "callee instance must already be present in the registry")
      | some _ =>
        match buildBridges cfg registry rest with
        | .error e => .error e
        | .ok t => .ok ((b.handle, b.callee_id) :: t)

/-- The storage-materialization step of the context builder: for `File{path}`
storage, create the file storage through the injected collaborator. -/
def storageCheck (env : Env) : StorageConfiguration → Except CErr Unit
  | .file path =>
    match env.fileStorage path with
    | .error e => .error (.str ("Error creating context: " ++ e))
    | .ok _ => .ok ()
  | .memory => .ok ()

/-- The final steps of `instantiate_from_config`: load the DNA through the
injected loader (mapping failure to the config error naming the file), then
construct the instance from the DNA and the assembled context. -/
def instantiateTail (env : Env) (file : String) (ctx : Context) :
    Except CErr Holochain × List Event :=
  match env.dnaLoader file with
  | .error _ =>
    (.error (.str ("Could not load DNA file \"" ++ file ++ "\"")), [Event.loadDna file])
  | .ok dna =>
    match env.holochainNew dna ctx with
    | .error e => (.error (.str e), [Event.loadDna file])
    | .ok hc => (.ok hc, [Event.loadDna file])

/-- `Container::instantiate_from_config`: re-check consistency, resolve the
instance, agent and DNA entries, build the context (agent key, storage,
logger, bridge call-table, signal sender), load the DNA through the injected
loader, and construct the instance. Returns the result together with the
loader-invocation events. -/
def instantiate_from_config (env : Env) (s : ContainerState) (id : String)
    (cfg : Configuration) : Except CErr Holochain × List Event :=
  match check_consistency cfg with
  | .error e => (.error (.str e), [])
  | .ok _ =>
    match instance_by_id cfg id with
    | none => (.error (.str "Instance not found in config"), [])
    | some instance_config =>
      match agent_by_id cfg instance_config.agent with
      | none => (.error (.fatal "agent_by_id unwrap failed"), [])
      | some agent_config =>
        match env.keyParse agent_config.public_address with
        | .error e => (.error (.str e), [])
        | .ok pub_key =>
          match storageCheck env instance_config.storage with
          | .error e => (.error e, [])
          | .ok _ =>
            match buildBridges cfg s.instances (bridge_dependencies cfg id) with
            | .error e => (.error e, [])
            | .ok btable =>
              match dna_by_id cfg instance_config.dna with
              | none => (.error (.fatal "dna_by_id unwrap failed"), [])
              | some dna_config =>
                instantiateTail env dna_config.file
                  { agent_name := agent_config.name, agent_key := pub_key,
                    p2p_config := instance_p2p_config s,
                    storage := instance_config.storage,
                    channel_logger := cfg.logger.logger_type == "debug",
                    bridge_handles := btable, has_signal := s.signal_tx }

deriving instance DecidableEq for Except

/-- The outcome of `load_config`: result, final container state and the trace
of observable side effects. -/
structure LoadOut where
  res : Except CErr Unit
  state : ContainerState
  events : List Event
deriving DecidableEq

/-- The instantiation loop of `load_config`: build each instance in the given
order, inserting it into the registry; the first failure aborts the loop with
the formatted per-instance error, leaving the registry as built so far. -/
def loadLoop (env : Env) (cfg : Configuration) :
    List String → ContainerState → List Event → LoadOut
  | [], s, evs => ⟨.ok (), s, evs⟩
  | id :: rest, s, evs =>
    match instantiate_from_config env s id cfg with
    | (.error (.str e), evs') =>
      ⟨.error (.str ("Error while trying to create instance \"" ++ id ++ "\": " ++ e)),
        s, evs ++ evs'⟩
    | (.error (.fatal e), evs') => ⟨.error (.fatal e), s, evs ++ evs'⟩
    | (.ok inst, evs') =>
      loadLoop env cfg rest { s with instances := s.instances ++ [(id, inst)] } (evs ++ evs')

/-- The part of `load_config` after the P2P initialization: shut down and
clear the existing registry, then instantiate every configured instance in
bridge-dependency order. -/
def loadPhase2 (env : Env) (s1 : ContainerState) (evs1 : List Event) : LoadOut :=
  match shutdown s1 with
  | (.error e, s2) => ⟨.error (.str e), s2, evs1⟩
  | (.ok _, s2) =>
    match instance_ids_sorted_by_bridge_dependencies s1.config with
    | .error e => ⟨.error (.str e), { s2 with instances := [] }, evs1⟩
    | .ok order => loadLoop env s1.config order { s2 with instances := [] } evs1

/-- `Container::load_config`: check consistency; on the first call initialize
the container-wide P2P config (possibly spawning the helper); shut down and
clear the existing registry; then instantiate every configured instance in
bridge-dependency order. -/
def load_config (env : Env) (s : ContainerState) : LoadOut :=
  match check_consistency s.config with
  | .error e => ⟨.error (.str e), s, []⟩
  | .ok _ =>
    if s.p2p_config.isNone then
      let r := init_p2p_config env s
      loadPhase2 env { r.2.1 with p2p_config := some r.1 } r.2.2
    else
      loadPhase2 env s []

/-- `Container::start_interface`: refuse an id that is already running,
otherwise spawn one new worker and record it under the interface id. -/
def start_interface (s : ContainerState) (ic : InterfaceConfiguration) :
    Except String Unit × ContainerState :=
  if memB ic.id (s.interface_threads.map Prod.fst) then
    (.error ("Interface " ++ ic.id ++ " already started!"), s)
  else
    (.ok (),
      { s with
          interface_threads := s.interface_threads ++ [(ic.id, s.next_worker)]
          next_worker := s.next_worker + 1 })

/-- `Container::start_interface_by_id`: resolve the interface in the
configuration, then start it. -/
def start_interface_by_id (s : ContainerState) (id : String) :
    Except String Unit × ContainerState :=
  match interface_by_id s.config id with
  | none => (.error ("Interface does not exist: " ++ id), s)
  | some ic => start_interface s ic

/-- `impl Drop for Container`: take the kill handle, if present, and invoke it. -/
def dropContainer (s : ContainerState) : ContainerState × List Event :=
  if s.network_child_process then
    ({ s with network_child_process := false }, [Event.killNet])
  else (s, [])

/-- An operation in a container's lifetime: a `load_config` call (with its
injected collaborators) or a drop of the container. -/
inductive ContainerOp where
  | loadOp (env : Env)
  | dropOp

/-- Run a sequence of lifetime operations, collecting all side effects. -/
def runOps : List ContainerOp → ContainerState → ContainerState × List Event
  | [], s => (s, [])
  | ContainerOp.loadOp env :: rest, s =>
    let out := load_config env s
    let r := runOps rest out.state
    (r.1, out.events ++ r.2)
  | ContainerOp.dropOp :: rest, s =>
    let d := dropContainer s
    let r := runOps rest d.1
    (r.1, d.2 ++ r.2)

/-- All side effects over a container lifetime started from `from_config`. -/
def lifetimeEvents (cfg : Configuration) (ops : List ContainerOp) : List Event :=
  (runOps ops (from_config cfg)).2

/-- Boolean test for a DNA-loader invocation event. -/
def isLoadB : Event → Bool
  | .loadDna _ => true
  | _ => false

/-- Number of helper-process spawn attempts in a trace. -/
def countSpawn (evs : List Event) : Nat :=
  (evs.filter (fun e => match e with | .spawnNet => true | _ => false)).length

/-- Number of kill-handle invocations in a trace. -/
def countKill (evs : List Event) : Nat :=
  (evs.filter (fun e => match e with | .killNet => true | _ => false)).length

/-- Number of loader invocations for one specific file in a trace. -/
def countLoadsOf (file : String) (evs : List Event) : Nat :=
  (evs.filter (fun e => match e with | .loadDna f => f == file | _ => false)).length

/-- The loader-invocation events of instantiating the given ids in order. -/
def loadEventsOf (cfg : Configuration) (ids : List String) : List Event :=
  ids.filterMap (fun id => (dnaFileOf cfg id).map Event.loadDna)

/-! ## Get-entry workflows (`core/src/workflows/get_entry_result.rs`) -/

/-- CRUD status of an entry (from `holochain_core_types::crud_status`). -/
inductive CrudStatus where
  | live
  | rejected
  | deleted
  | modified
  | locked
deriving DecidableEq

/-- An entry together with its CRUD metadata. -/
structure EntryWithMeta where
  entry : String
  crud_status : CrudStatus
  maybe_crud_link : Option String
deriving DecidableEq

/-- Which portion of an entry's history a get request asks for. -/
inductive StatusRequestKind where
  | initial
  | latest
  | all
deriving DecidableEq

/-- Options of a get-entry request; only the fields the workflow reads. -/
structure GetEntryOptions where
  status_request : StatusRequestKind
  sources : Bool
  header : Bool
deriving DecidableEq

/-- Arguments of `get_entry_result_workflow`. -/
structure GetEntryArgs where
  address : String
  options : GetEntryOptions
deriving DecidableEq

/-- Modelled from the spec: the accumulating `GetEntryResult` of
`holochain_wasm_utils` (not under the provided sources); it records the
requested kind and the accumulated entry history. -/
structure GetEntryResult where
  status_request : StatusRequestKind
  entries : List EntryWithMeta
deriving DecidableEq

/-- Modelled from the spec: `GetEntryResult::new`. -/
def GetEntryResult.mkNew (k : StatusRequestKind) : GetEntryResult :=
  ⟨k, []⟩

/-- Modelled from the spec: `GetEntryResult::push`, appending to the history. -/
def GetEntryResult.push (r : GetEntryResult) (e : EntryWithMeta) : GetEntryResult :=
  { r with entries := r.entries ++ [e] }

/-- Modelled from the spec: `GetEntryResult::clear`, erasing the history. -/
def GetEntryResult.clear (r : GetEntryResult) : GetEntryResult :=
  { r with entries := [] }

/-- Modelled from the spec: the local DHT-shard lookup
(`nucleus::actions::get_entry::get_entry_with_meta`) and the network fetch
(`network::actions::get_entry::get_entry`), injected as oracles. -/
structure FetchEnv where
  localGet : String → Except String (Option EntryWithMeta)
  netGet : String → Except String (Option EntryWithMeta)

/-- A lookup performed by the workflows, recorded in order. -/
inductive FetchEvent where
  | localLookup (a : String)
  | networkFetch (a : String)
deriving DecidableEq

/-- `get_entry_with_meta_workflow`: try the local shard first; only on a local
`Ok(None)` fall back to the network, returning its result verbatim. -/
def get_entry_with_meta_workflow (env : FetchEnv) (address : String) :
    Except String (Option EntryWithMeta) × List FetchEvent :=
  match env.localGet address with
  | .error e => (.error e, [FetchEvent.localLookup address])
  | .ok (some ewm) => (.ok (some ewm), [FetchEvent.localLookup address])
  | .ok none =>
    (env.netGet address, [FetchEvent.localLookup address, FetchEvent.networkFetch address])

/-- The history-accumulation loop of `get_entry_result_workflow`, with fuel
bounding the crud-link chain (`none` when the chain outruns the fuel). -/
def gerLoop (env : FetchEnv) (args : GetEntryArgs) :
    Nat → GetEntryResult → String → Option (Except String GetEntryResult × List FetchEvent)
  | 0, _, _ => none
  | fuel + 1, acc, address =>
    let r := get_entry_with_meta_workflow env address
    match r.1 with
    | .error e => some (.error e, r.2)
    | .ok none => some (.ok acc, r.2)
    | .ok (some ewm) =>
      if args.options.status_request = StatusRequestKind.latest ∧
          ewm.crud_status = CrudStatus.deleted then
        some (.ok acc.clear, r.2)
      else
        let acc2 := acc.push ewm
        if args.options.status_request = StatusRequestKind.initial then
          some (.ok acc2, r.2)
        else
          match ewm.maybe_crud_link with
          | some next =>
            if ewm.crud_status ≠ CrudStatus.deleted ∧
                args.options.status_request ≠ StatusRequestKind.initial then
              match gerLoop env args fuel acc2 next with
              | none => none
              | some (res, evs) => some (res, r.2 ++ evs)
            else some (.ok acc2, r.2)
          | none => some (.ok acc2, r.2)

/-- `get_entry_result_workflow`: reject unimplemented options up front, then
accumulate the entry history starting from the requested address. -/
def get_entry_result_workflow (env : FetchEnv) (args : GetEntryArgs) (fuel : Nat) :
    Option (Except String GetEntryResult × List FetchEvent) :=
  if args.options.sources || args.options.header then
    some (.error "sources and header option not implemented", [])
  else
    gerLoop env args fuel (GetEntryResult.mkNew args.options.status_request) args.address

/-! ## Facts about the consistency checker -/

theorem check_parts (cfg : Configuration) (order : List String)
    (h : check_consistency cfg = .ok order) :
    refOkB cfg = true ∧ dupOkB cfg = true ∧
      instance_ids_sorted_by_bridge_dependencies cfg = .ok order := by
  unfold check_consistency at h
  split at h
  · next hcond =>
    simp only [Bool.and_eq_true] at hcond
    exact ⟨hcond.1, hcond.2, h⟩
  · exact absurd h (by simp)

theorem find_instance_of_mem (cfg : Configuration) (id : String) (h : id ∈ instanceIds cfg) :
    ∃ ic, instance_by_id cfg id = some ic ∧ ic.id = id ∧ ic ∈ cfg.instances := by
  have h' : id ∈ cfg.instances.map (fun i => i.id) := h
  exact findById_mem _ id cfg.instances h'

theorem find_agent_of_mem (cfg : Configuration) (id : String) (h : id ∈ agentIds cfg) :
    ∃ ac, agent_by_id cfg id = some ac ∧ ac.id = id ∧ ac ∈ cfg.agents := by
  have h' : id ∈ cfg.agents.map (fun a => a.id) := h
  exact findById_mem _ id cfg.agents h'

theorem find_dna_of_mem (cfg : Configuration) (id : String) (h : id ∈ dnaIds cfg) :
    ∃ dc, dna_by_id cfg id = some dc ∧ dc.id = id ∧ dc ∈ cfg.dnas := by
  have h' : id ∈ cfg.dnas.map (fun d => d.id) := h
  exact findById_mem _ id cfg.dnas h'

theorem refOk_instance (cfg : Configuration) (h : refOkB cfg = true) :
    ∀ i ∈ cfg.instances, i.dna ∈ dnaIds cfg ∧ i.agent ∈ agentIds cfg := by
  unfold refOkB at h
  simp only [Bool.and_eq_true] at h
  intro i hi
  have := List.all_eq_true.mp h.1.1 i hi
  simp only [Bool.and_eq_true] at this
  exact ⟨(memB_iff _ _).mp this.1, (memB_iff _ _).mp this.2⟩

theorem refOk_bridge (cfg : Configuration) (h : refOkB cfg = true) :
    ∀ b ∈ cfg.bridges, b.caller_id ∈ instanceIds cfg ∧ b.callee_id ∈ instanceIds cfg := by
  unfold refOkB at h
  simp only [Bool.and_eq_true] at h
  intro b hb
  have := List.all_eq_true.mp h.1.2 b hb
  simp only [Bool.and_eq_true] at this
  exact ⟨(memB_iff _ _).mp this.1.1, (memB_iff _ _).mp this.1.2⟩

theorem bridge_dependencies_mem (cfg : Configuration) (id : String) (b : Bridge) :
    b ∈ bridge_dependencies cfg id ↔ b ∈ cfg.bridges ∧ b.caller_id = id := by
  unfold bridge_dependencies
  rw [List.mem_filter]
  simp

theorem depsOf_mem (cfg : Configuration) (id d : String) :
    d ∈ depsOf cfg id ↔ ∃ b ∈ cfg.bridges, b.caller_id = id ∧ b.callee_id = d := by
  unfold depsOf
  rw [List.mem_map]
  constructor
  · rintro ⟨b, hb, rfl⟩
    rcases (bridge_dependencies_mem cfg id b).mp hb with ⟨h1, h2⟩
    exact ⟨b, h1, h2, rfl⟩
  · rintro ⟨b, hb, hcaller, rfl⟩
    exact ⟨b, (bridge_dependencies_mem cfg id b).mpr ⟨hb, hcaller⟩, rfl⟩

theorem buildBridges_ok (cfg : Configuration) (registry : List (String × Holochain))
    (bl : List Bridge)
    (h1 : ∀ b ∈ bl, b.callee_id ∈ instanceIds cfg)
    (h2 : ∀ b ∈ bl, b.callee_id ∈ registry.map Prod.fst) :
    ∃ t, buildBridges cfg registry bl = .ok t := by
  induction bl with
  | nil => exact ⟨[], rfl⟩
  | cons b rest ih =>
    obtain ⟨ic, hic, _, _⟩ :=
      find_instance_of_mem cfg b.callee_id (h1 b (List.mem_cons_self _ _))
    obtain ⟨v, hv⟩ :=
      lookupId_isSome_of_mem b.callee_id registry (h2 b (List.mem_cons_self _ _))
    obtain ⟨t, ht⟩ := ih (fun x hx => h1 x (List.mem_cons_of_mem _ hx))
      (fun x hx => h2 x (List.mem_cons_of_mem _ hx))
    refine ⟨(b.handle, b.callee_id) :: t, ?_⟩
    unfold buildBridges
    rw [hic, hv, ht]


/-! ## Behaviour of `instantiate_from_config` under an accepted configuration -/

theorem storageCheck_cases (env : Env) (st : StorageConfiguration) :
    storageCheck env st = .ok () ∨ ∃ m, storageCheck env st = .error (.str m) := by
  cases st with
  | memory => exact Or.inl rfl
  | file path =>
    cases hfs : env.fileStorage path with
    | error e => exact Or.inr ⟨"Error creating context: " ++ e, by simp [storageCheck, hfs]⟩
    | ok u => exact Or.inl (by simp [storageCheck, hfs])

theorem instantiateTail_cases (env : Env) (file : String) (ctx : Context) :
    (∃ inst, instantiateTail env file ctx = (.ok inst, [Event.loadDna file])) ∨
    (∃ m, instantiateTail env file ctx = (.error (.str m), [Event.loadDna file])) := by
  cases hdl : env.dnaLoader file with
  | error u =>
    exact Or.inr ⟨"Could not load DNA file \"" ++ file ++ "\"", by simp [instantiateTail, hdl]⟩
  | ok dna =>
    cases hhn : env.holochainNew dna ctx with
    | error e => exact Or.inr ⟨e, by simp [instantiateTail, hdl, hhn]⟩
    | ok inst => exact Or.inl ⟨inst, by simp [instantiateTail, hdl, hhn]⟩

theorem instantiate_spec (env : Env) (s : ContainerState) (id : String)
    (cfg : Configuration) (order : List String)
    (hc : check_consistency cfg = .ok order)
    (hid : id ∈ instanceIds cfg)
    (hdeps : ∀ d ∈ depsOf cfg id, d ∈ s.instances.map Prod.fst) :
    (∃ inst f, instantiate_from_config env s id cfg = (.ok inst, [Event.loadDna f]) ∧
       dnaFileOf cfg id = some f) ∨
    (∃ m, (instantiate_from_config env s id cfg).1 = .error (.str m) ∧
       ((instantiate_from_config env s id cfg).2 = [] ∨
        ∃ f, (instantiate_from_config env s id cfg).2 = [Event.loadDna f])) := by
  obtain ⟨hrefOk, hdupOk, hsort⟩ := check_parts cfg order hc
  obtain ⟨ic, hic, hicid, hicmem⟩ := find_instance_of_mem cfg id hid
  obtain ⟨hdnaMem, hagMem⟩ := refOk_instance cfg hrefOk ic hicmem
  obtain ⟨ac, hac, hacid, hacmem⟩ := find_agent_of_mem cfg ic.agent hagMem
  obtain ⟨dc, hdc, hdcid, hdcmem⟩ := find_dna_of_mem cfg ic.dna hdnaMem
  have hfile : dnaFileOf cfg id = some dc.file := by
    simp [dnaFileOf, hic, hdc]
  obtain ⟨bt, hbt⟩ := buildBridges_ok cfg s.instances (bridge_dependencies cfg id)
    (fun b hb => by
      rcases (bridge_dependencies_mem cfg id b).mp hb with ⟨hbb, _⟩
      exact (refOk_bridge cfg hrefOk b hbb).2)
    (fun b hb => by
      rcases (bridge_dependencies_mem cfg id b).mp hb with ⟨hbb, hcaller⟩
      exact hdeps b.callee_id ((depsOf_mem cfg id b.callee_id).mpr ⟨b, hbb, hcaller, rfl⟩))
  cases hkp : env.keyParse ac.public_address with
  | error e =>
    right
    exact ⟨e, by simp [instantiate_from_config, hc, hic, hac, hkp],
      Or.inl (by simp [instantiate_from_config, hc, hic, hac, hkp])⟩
  | ok pub_key =>
    rcases storageCheck_cases env ic.storage with hst | ⟨m, hst⟩
    · rcases instantiateTail_cases env dc.file
          { agent_name := ac.name, agent_key := pub_key,
            p2p_config := instance_p2p_config s, storage := ic.storage,
            channel_logger := cfg.logger.logger_type == "debug",
            bridge_handles := bt, has_signal := s.signal_tx } with
        ⟨inst, htl⟩ | ⟨m, htl⟩
      · left
        exact ⟨inst, dc.file,
          by simp [instantiate_from_config, hc, hic, hac, hkp, hst, hbt, hdc, htl], hfile⟩
      · right
        refine ⟨m, ?_, Or.inr ⟨dc.file, ?_⟩⟩ <;>
          simp [instantiate_from_config, hc, hic, hac, hkp, hst, hbt, hdc, htl]
    · right
      refine ⟨m, ?_, Or.inl ?_⟩ <;>
        simp [instantiate_from_config, hc, hic, hac, hkp, hst]

/-! ## The load loop respects the topological order -/

/-- The ids still to instantiate, each having all its callees among the ids
already processed (`seen`). -/
def orderedFrom (cfg : Configuration) : List String → List String → Prop
  | _, [] => True
  | seen, id :: rest =>
    (∀ d ∈ depsOf cfg id, d ∈ seen) ∧ orderedFrom cfg (seen ++ [id]) rest

theorem orderedFrom_of_decomp (cfg : Configuration) :
    ∀ (out seen : List String),
    (∀ pre x post, out = pre ++ x :: post → ∀ d ∈ depsOf cfg x, d ∈ seen ++ pre) →
    orderedFrom cfg seen out := by
  intro out
  induction out with
  | nil => intro seen _; trivial
  | cons id rest ih =>
    intro seen h
    refine ⟨?_, ?_⟩
    · intro d hd
      have := h [] id rest (by simp) d hd
      simpa using this
    · apply ih
      intro pre x post hp d hd
      have := h (id :: pre) x post (by simp [hp]) d hd
      simp only [List.mem_append, List.mem_cons] at this ⊢
      tauto

theorem order_orderedFrom (cfg : Configuration) (order : List String)
    (hc : check_consistency cfg = .ok order) : orderedFrom cfg [] order := by
  obtain ⟨_, _, hsort⟩ := check_parts cfg order hc
  apply orderedFrom_of_decomp
  intro pre x post hp d hd
  have := order_decomp_deps cfg order pre post x hsort hp d hd
  simpa using this

theorem instantiateTail_events (env : Env) (file : String) (ctx : Context) :
    (instantiateTail env file ctx).2 = [Event.loadDna file] := by
  unfold instantiateTail
  split
  · rfl
  · split <;> rfl

theorem instantiate_events_shape (env : Env) (s : ContainerState) (id : String)
    (cfg : Configuration) :
    (instantiate_from_config env s id cfg).2 = [] ∨
    ∃ f, (instantiate_from_config env s id cfg).2 = [Event.loadDna f] := by
  unfold instantiate_from_config
  split
  · left; rfl
  · split
    · left; rfl
    · split
      · left; rfl
      · split
        · left; rfl
        · split
          · left; rfl
          · split
            · left; rfl
            · split
              · left; rfl
              · right
                exact ⟨_, instantiateTail_events env _ _⟩

theorem loadLoop_spec (env : Env) (cfg : Configuration) (order : List String)
    (hc : check_consistency cfg = .ok order) :
    ∀ (rest : List String) (s : ContainerState) (evs : List Event),
    (∀ x ∈ rest, x ∈ instanceIds cfg) →
    orderedFrom cfg (s.instances.map Prod.fst) rest →
    (∀ m, (loadLoop env cfg rest s evs).res ≠ .error (.fatal m)) ∧
    ((loadLoop env cfg rest s evs).res = .ok () →
       (loadLoop env cfg rest s evs).state.instances.map Prod.fst =
         s.instances.map Prod.fst ++ rest ∧
       (loadLoop env cfg rest s evs).events = evs ++ loadEventsOf cfg rest) ∧
    (∀ m, (loadLoop env cfg rest s evs).res = .error (.str m) →
       ∃ k id c, rest.get? k = some id ∧
         m = "Error while trying to create instance \"" ++ id ++ "\": " ++ c ∧
         (loadLoop env cfg rest s evs).state.instances.map Prod.fst =
           s.instances.map Prod.fst ++ rest.take k) := by
  intro rest
  induction rest with
  | nil =>
    intro s evs _ _
    refine ⟨?_, ?_, ?_⟩
    · intro m h; exact absurd h (by simp [loadLoop])
    · intro _
      exact ⟨by simp [loadLoop, loadEventsOf], by simp [loadLoop, loadEventsOf]⟩
    · intro m h; exact absurd h (by simp [loadLoop])
  | cons id rest ih =>
    intro s evs hmem hord
    rcases instantiate_spec env s id cfg order hc (hmem id (List.mem_cons_self _ _)) hord.1 with
      ⟨inst, f, heq, hfl⟩ | ⟨m, hres, _⟩
    · have hred : loadLoop env cfg (id :: rest) s evs =
          loadLoop env cfg rest { s with instances := s.instances ++ [(id, inst)] }
            (evs ++ [Event.loadDna f]) := by
        simp [loadLoop, heq]
      have hkeys : ({ s with instances := s.instances ++ [(id, inst)] } :
          ContainerState).instances.map Prod.fst = s.instances.map Prod.fst ++ [id] := by
        simp
      have hordrec : orderedFrom cfg
          (({ s with instances := s.instances ++ [(id, inst)] } :
            ContainerState).instances.map Prod.fst) rest := by
        rw [hkeys]; exact hord.2
      obtain ⟨ihA, ihB, ihC⟩ := ih { s with instances := s.instances ++ [(id, inst)] }
        (evs ++ [Event.loadDna f]) (fun x hx => hmem x (List.mem_cons_of_mem _ hx)) hordrec
      have hmapf : (dnaFileOf cfg id).map Event.loadDna = some (Event.loadDna f) := by
        simp [hfl]
      refine ⟨?_, ?_, ?_⟩
      · intro m h; rw [hred] at h; exact ihA m h
      · intro h
        rw [hred] at h
        obtain ⟨hk, he⟩ := ihB h
        constructor
        · rw [hred, hk, hkeys]
          simp
        · rw [hred, he]
          simp [loadEventsOf, List.filterMap_cons, hmapf]
      · intro m h
        rw [hred] at h
        obtain ⟨k, id', c, hget, hm, hkey⟩ := ihC m h
        refine ⟨k + 1, id', c, by simpa using hget, hm, ?_⟩
        rw [hred, hkey, hkeys]
        simp [List.take_succ_cons]
    · have hpair : instantiate_from_config env s id cfg =
          (.error (.str m), (instantiate_from_config env s id cfg).2) := by
        rw [← hres]
      have hred : loadLoop env cfg (id :: rest) s evs =
          ⟨.error (.str ("Error while trying to create instance \"" ++ id ++ "\": " ++ m)),
            s, evs ++ (instantiate_from_config env s id cfg).2⟩ := by
        conv_lhs => rw [loadLoop, hpair]
      refine ⟨?_, ?_, ?_⟩
      · intro m' h; rw [hred] at h; simp at h
      · intro h; rw [hred] at h; simp at h
      · intro m' h
        rw [hred] at h
        have h' : Except.error (CErr.str
            ("Error while trying to create instance \"" ++ id ++ "\": " ++ m)) =
            (Except.error (CErr.str m') : Except CErr Unit) := h
        refine ⟨0, id, m, rfl, (CErr.str.inj (Except.error.inj h')).symm, ?_⟩
        rw [hred]
        simp

/-! ## Preservation and counting lemmas for the container operations -/

theorem loadLoop_fields (env : Env) (cfg : Configuration) :
    ∀ (rest : List String) (s : ContainerState) (evs : List Event),
    (loadLoop env cfg rest s evs).state.config = s.config ∧
    (loadLoop env cfg rest s evs).state.p2p_config = s.p2p_config ∧
    (loadLoop env cfg rest s evs).state.network_child_process = s.network_child_process ∧
    (loadLoop env cfg rest s evs).state.signal_tx = s.signal_tx ∧
    (loadLoop env cfg rest s evs).state.interface_threads = s.interface_threads ∧
    (loadLoop env cfg rest s evs).state.next_worker = s.next_worker := by
  intro rest
  induction rest with
  | nil => intro s evs; simp [loadLoop]
  | cons id rest ih =>
    intro s evs
    rcases hinst : instantiate_from_config env s id cfg with ⟨res, evs2⟩
    cases res with
    | ok inst =>
      have hred : loadLoop env cfg (id :: rest) s evs =
          loadLoop env cfg rest { s with instances := s.instances ++ [(id, inst)] }
            (evs ++ evs2) := by
        simp [loadLoop, hinst]
      rw [hred]
      simpa using ih { s with instances := s.instances ++ [(id, inst)] } (evs ++ evs2)
    | error e =>
      cases e with
      | str m => simp [loadLoop, hinst]
      | fatal m => simp [loadLoop, hinst]

theorem countSpawn_append (a b : List Event) :
    countSpawn (a ++ b) = countSpawn a + countSpawn b := by
  simp [countSpawn, List.filter_append]

theorem countKill_append (a b : List Event) :
    countKill (a ++ b) = countKill a + countKill b := by
  simp [countKill, List.filter_append]

theorem counts_instantiate (env : Env) (s : ContainerState) (id : String)
    (cfg : Configuration) :
    countSpawn (instantiate_from_config env s id cfg).2 = 0 ∧
    countKill (instantiate_from_config env s id cfg).2 = 0 := by
  rcases instantiate_events_shape env s id cfg with h | ⟨f, h⟩ <;>
    simp [h, countSpawn, countKill]

theorem loadLoop_counts (env : Env) (cfg : Configuration) :
    ∀ (rest : List String) (s : ContainerState) (evs : List Event),
    countSpawn (loadLoop env cfg rest s evs).events = countSpawn evs ∧
    countKill (loadLoop env cfg rest s evs).events = countKill evs := by
  intro rest
  induction rest with
  | nil => intro s evs; simp [loadLoop]
  | cons id rest ih =>
    intro s evs
    have hcnt := counts_instantiate env s id cfg
    rcases hinst : instantiate_from_config env s id cfg with ⟨res, evs2⟩
    rw [hinst] at hcnt
    cases res with
    | ok inst =>
      have hred : loadLoop env cfg (id :: rest) s evs =
          loadLoop env cfg rest { s with instances := s.instances ++ [(id, inst)] }
            (evs ++ evs2) := by
        simp [loadLoop, hinst]
      rw [hred]
      obtain ⟨ih1, ih2⟩ := ih { s with instances := s.instances ++ [(id, inst)] } (evs ++ evs2)
      rw [ih1, ih2, countSpawn_append, countKill_append, hcnt.1, hcnt.2]
      constructor <;> rfl
    | error e =>
      cases e with
      | str m =>
        simp [loadLoop, hinst, countSpawn_append, countKill_append, hcnt.1, hcnt.2]
      | fatal m =>
        simp [loadLoop, hinst, countSpawn_append, countKill_append, hcnt.1, hcnt.2]

theorem stop_all_state (s : ContainerState) :
    (stop_all_instances s).2 = { s with instances := (stopAllList s.instances).2 } := by
  unfold stop_all_instances
  cases h : (stopAllList s.instances).1 <;> simp [h]

theorem shutdown_fields (s : ContainerState) :
    (shutdown s).2.config = s.config ∧ (shutdown s).2.p2p_config = s.p2p_config ∧
    (shutdown s).2.network_child_process = s.network_child_process ∧
    (shutdown s).2.signal_tx = s.signal_tx ∧
    (shutdown s).2.interface_threads = s.interface_threads ∧
    (shutdown s).2.next_worker = s.next_worker := by
  unfold shutdown
  rcases hsa : stop_all_instances s with ⟨r, s2⟩
  have hs2 : s2 = { s with instances := (stopAllList s.instances).2 } := by
    have := stop_all_state s
    rw [hsa] at this
    exact this
  cases r with
  | error e => simp [hs2]
  | ok u => simp [hs2]

theorem shutdown_empty (s : ContainerState) (h : s.instances = []) :
    shutdown s = (.ok (), { s with instances := [] }) := by
  have h1 : stopAllList s.instances = (none, []) := by rw [h]; rfl
  unfold shutdown stop_all_instances
  rw [h1]

theorem filter_isLoadB_loadEventsOf (cfg : Configuration) (ids : List String) :
    (loadEventsOf cfg ids).filter isLoadB = loadEventsOf cfg ids := by
  rw [List.filter_eq_self]
  intro e he
  rcases List.mem_filterMap.mp he with ⟨id, _, hm⟩
  rcases Option.map_eq_some'.mp hm with ⟨f, _, hfe⟩
  rw [← hfe]
  rfl

theorem spawn_network_facts (env : Env) (s : ContainerState) :
    ((spawn_network env s).2.1 = s ∨
     (spawn_network env s).2.1 = { s with network_child_process := true }) ∧
    ((spawn_network env s).2.2 = [] ∨ (spawn_network env s).2.2 = [Event.spawnNet]) := by
  unfold spawn_network
  cases hn : s.config.network with
  | none => simp
  | some net => cases h : env.ipcSpawn net <;> simp [h]

theorem init_p2p_facts (env : Env) (s : ContainerState) :
    ((init_p2p_config env s).2.1 = s ∨
     (init_p2p_config env s).2.1 = { s with network_child_process := true }) ∧
    ((init_p2p_config env s).2.2 = [] ∨ (init_p2p_config env s).2.2 = [Event.spawnNet]) := by
  unfold init_p2p_config
  cases hn : s.config.network with
  | none => simp
  | some net =>
    cases hu : net.n3h_ipc_uri with
    | some uri => simp [hu]
    | none =>
      have hsf := spawn_network_facts env s
      rcases hsp : spawn_network env s with ⟨rr, ss, evs⟩
      rw [hsp] at hsf
      cases rr <;> simp_all

theorem loadPhase2_general (env : Env) (s1 : ContainerState) (evs1 : List Event)
    (order : List String) (hc : check_consistency s1.config = .ok order) :
    (∀ m, (loadPhase2 env s1 evs1).res ≠ .error (.fatal m)) ∧
    ((loadPhase2 env s1 evs1).res = .ok () →
       (loadPhase2 env s1 evs1).state.instances.map Prod.fst = order ∧
       (loadPhase2 env s1 evs1).events = evs1 ++ loadEventsOf s1.config order) := by
  obtain ⟨_, _, hsort⟩ := check_parts _ order hc
  rcases hsd : shutdown s1 with ⟨r, s2⟩
  cases r with
  | error e =>
    refine ⟨?_, ?_⟩
    · intro m h
      rw [loadPhase2, hsd] at h
      simp at h
    · intro h
      rw [loadPhase2, hsd] at h
      simp at h
  | ok u =>
    have hred : loadPhase2 env s1 evs1 =
        loadLoop env s1.config order { s2 with instances := [] } evs1 := by
      rw [loadPhase2, hsd, hsort]
    have hkeys : ({ s2 with instances := [] } :
        ContainerState).instances.map Prod.fst = [] := rfl
    obtain ⟨hA, hB, _⟩ := loadLoop_spec env s1.config order hc order
      { s2 with instances := [] } evs1
      (fun x hx => (order_mem_iff s1.config order hsort x).mp hx)
      (by rw [hkeys]; exact order_orderedFrom s1.config order hc)
    refine ⟨?_, ?_⟩
    · intro m h
      rw [hred] at h
      exact hA m h
    · intro h
      rw [hred] at h
      obtain ⟨hk, he⟩ := hB h
      constructor
      · rw [hred, hk, hkeys]
        simp
      · rw [hred]
        exact he

theorem shutdown_of_stop_ok (s : ContainerState)
    (h : (stopAllList s.instances).1 = none) :
    shutdown s = (.ok (), { s with instances := [] }) := by
  rcases hsl : stopAllList s.instances with ⟨r1, l⟩
  have h' : r1 = none := by rw [hsl] at h; exact h
  subst h'
  unfold shutdown stop_all_instances
  rw [hsl]

theorem loadPhase2_stop_err (env : Env) (s1 : ContainerState) (evs1 : List Event)
    (m : String) (h : (stopAllList s1.instances).1 = some m) :
    (loadPhase2 env s1 evs1).res = .error (.str m) := by
  rcases hsl : stopAllList s1.instances with ⟨r1, l⟩
  have h' : r1 = some m := by rw [hsl] at h; exact h
  subst h'
  have hsd : shutdown s1 = (.error m, { s1 with instances := l }) := by
    unfold shutdown stop_all_instances
    rw [hsl]
  unfold loadPhase2
  rw [hsd]

theorem loadPhase2_err (env : Env) (s1 : ContainerState) (evs1 : List Event)
    (order : List String) (hstop : (stopAllList s1.instances).1 = none)
    (hc : check_consistency s1.config = .ok order) :
    ∀ m, (loadPhase2 env s1 evs1).res = .error (.str m) →
      ∃ k id c, order.get? k = some id ∧
        m = "Error while trying to create instance \"" ++ id ++ "\": " ++ c ∧
        (loadPhase2 env s1 evs1).state.instances.map Prod.fst = order.take k := by
  obtain ⟨_, _, hsort⟩ := check_parts _ order hc
  have hsd := shutdown_of_stop_ok s1 hstop
  have hred : loadPhase2 env s1 evs1 =
      loadLoop env s1.config order { s1 with instances := [] } evs1 := by
    rw [loadPhase2, hsd, hsort]
  have hkeys : ({ s1 with instances := [] } :
      ContainerState).instances.map Prod.fst = [] := rfl
  obtain ⟨_, _, hC⟩ := loadLoop_spec env s1.config order hc order
    { s1 with instances := [] } evs1
    (fun x hx => (order_mem_iff s1.config order hsort x).mp hx)
    (by rw [hkeys]; exact order_orderedFrom s1.config order hc)
  intro m h
  rw [hred] at h
  obtain ⟨k, id, c, hget, hm, hkey⟩ := hC m h
  refine ⟨k, id, c, hget, hm, ?_⟩
  rw [hred, hkey, hkeys]
  simp

theorem load_reduce (env : Env) (s : ContainerState) (order : List String)
    (hc : check_consistency s.config = .ok order) :
    ∃ s1 evs1, load_config env s = loadPhase2 env s1 evs1 ∧
      s1.config = s.config ∧ s1.instances = s.instances ∧
      (evs1 = [] ∨ evs1 = [Event.spawnNet]) := by
  unfold load_config
  rw [hc]
  cases hp : s.p2p_config with
  | none =>
    obtain ⟨hst, hev⟩ := init_p2p_facts env s
    simp only [hp, Option.isNone_none, if_true]
    refine ⟨_, _, rfl, ?_, ?_, hev⟩
    · rcases hst with h | h <;> simp [h]
    · rcases hst with h | h <;> simp [h]
  | some v =>
    simp only [hp, Option.isNone_some, if_false]
    exact ⟨s, [], rfl, rfl, rfl, Or.inl rfl⟩

theorem load_no_fatal (env : Env) (s : ContainerState) (order : List String)
    (hc : check_consistency s.config = .ok order) :
    ∀ m, (load_config env s).res ≠ .error (.fatal m) := by
  obtain ⟨s1, evs1, heq, h1c, _, _⟩ := load_reduce env s order hc
  rw [heq]
  exact (loadPhase2_general env s1 evs1 order (by rw [h1c]; exact hc)).1

theorem load_ok_spec (env : Env) (s : ContainerState) (order : List String)
    (hc : check_consistency s.config = .ok order) :
    (load_config env s).res = .ok () →
    (load_config env s).state.instances.map Prod.fst = order ∧
    (load_config env s).events.filter isLoadB = loadEventsOf s.config order := by
  obtain ⟨s1, evs1, heq, h1c, _, hev⟩ := load_reduce env s order hc
  intro h
  rw [heq] at h ⊢
  obtain ⟨_, hB⟩ := loadPhase2_general env s1 evs1 order (by rw [h1c]; exact hc)
  obtain ⟨hk, he⟩ := hB h
  refine ⟨hk, ?_⟩
  rw [he, List.filter_append]
  have hev0 : evs1.filter isLoadB = [] := by
    rcases hev with h' | h' <;> simp [h', isLoadB]
  rw [hev0, filter_isLoadB_loadEventsOf, h1c]
  simp

theorem load_err_spec (env : Env) (s : ContainerState) (order : List String)
    (hstop : (stopAllList s.instances).1 = none)
    (hc : check_consistency s.config = .ok order) :
    ∀ m, (load_config env s).res = .error (.str m) →
      ∃ k id c, order.get? k = some id ∧
        m = "Error while trying to create instance \"" ++ id ++ "\": " ++ c ∧
        (load_config env s).state.instances.map Prod.fst = order.take k := by
  obtain ⟨s1, evs1, heq, h1c, h1i, _⟩ := load_reduce env s order hc
  rw [heq]
  exact loadPhase2_err env s1 evs1 order (by rw [h1i]; exact hstop)
    (by rw [h1c]; exact hc)

/-! ## P2P process: at most one spawn and one kill per lifetime -/

/-- Helper count of the recorded kill handle (1 when the container owns one). -/
def ncpNat (s : ContainerState) : Nat := if s.network_child_process then 1 else 0

/-- Remaining allowance for helper spawns: 1 until the P2P config is cached. -/
def budget (s : ContainerState) : Nat := if s.p2p_config.isNone then 1 else 0

theorem spawn_network_facts2 (env : Env) (s : ContainerState) :
    ((spawn_network env s).2.1 = s ∧ (spawn_network env s).2.2 = []) ∨
    ((spawn_network env s).2.1 = s ∧ (spawn_network env s).2.2 = [Event.spawnNet]) ∨
    ((spawn_network env s).2.1 = { s with network_child_process := true } ∧
      (spawn_network env s).2.2 = [Event.spawnNet]) := by
  unfold spawn_network
  cases hn : s.config.network with
  | none => simp
  | some net =>
    cases h : env.ipcSpawn net with
    | error e => right; left; simp [h]
    | ok binding => right; right; simp [h]

theorem init_p2p_facts2 (env : Env) (s : ContainerState) :
    ((init_p2p_config env s).2.1 = s ∧ (init_p2p_config env s).2.2 = []) ∨
    ((init_p2p_config env s).2.1 = s ∧ (init_p2p_config env s).2.2 = [Event.spawnNet]) ∨
    ((init_p2p_config env s).2.1 = { s with network_child_process := true } ∧
      (init_p2p_config env s).2.2 = [Event.spawnNet]) := by
  unfold init_p2p_config
  cases hn : s.config.network with
  | none => simp
  | some net =>
    cases hu : net.n3h_ipc_uri with
    | some uri => simp [hu]
    | none =>
      have hsf := spawn_network_facts2 env s
      rcases hsp : spawn_network env s with ⟨rr, ss, evs⟩
      rw [hsp] at hsf
      cases rr <;> simp_all

theorem loadPhase2_p2p (env : Env) (s1 : ContainerState) (evs1 : List Event) :
    countSpawn (loadPhase2 env s1 evs1).events = countSpawn evs1 ∧
    countKill (loadPhase2 env s1 evs1).events = countKill evs1 ∧
    (loadPhase2 env s1 evs1).state.p2p_config = s1.p2p_config ∧
    (loadPhase2 env s1 evs1).state.network_child_process = s1.network_child_process := by
  unfold loadPhase2
  have hf := shutdown_fields s1
  rcases hsd : shutdown s1 with ⟨r, s2⟩
  rw [hsd] at hf
  cases r with
  | error e =>
    exact ⟨rfl, rfl, hf.2.1, hf.2.2.1⟩
  | ok u =>
    cases hso : instance_ids_sorted_by_bridge_dependencies s1.config with
    | error e =>
      exact ⟨rfl, rfl, hf.2.1, hf.2.2.1⟩
    | ok order =>
      obtain ⟨hc1, hc2⟩ := loadLoop_counts env s1.config order { s2 with instances := [] } evs1
      obtain ⟨_, hp2, hncp, _⟩ :=
        loadLoop_fields env s1.config order { s2 with instances := [] } evs1
      exact ⟨hc1, hc2, by rw [hp2]; exact hf.2.1, by rw [hncp]; exact hf.2.2.1⟩

theorem load_p2p_facts (env : Env) (s : ContainerState) :
    countKill (load_config env s).events = 0 ∧
    countSpawn (load_config env s).events + budget (load_config env s).state ≤ budget s ∧
    ncpNat (load_config env s).state ≤ ncpNat s + countSpawn (load_config env s).events := by
  cases hc : check_consistency s.config with
  | error e =>
    have hred : load_config env s = ⟨.error (.str e), s, []⟩ := by
      unfold load_config
      rw [hc]
    rw [hred]
    simp [countSpawn, countKill]
  | ok order =>
    unfold load_config
    rw [hc]
    cases hp : s.p2p_config with
    | some v =>
      rw [if_neg (by simp [hp])]
      obtain ⟨h1, h2, h3, h4⟩ := loadPhase2_p2p env s []
      refine ⟨by rw [h2]; rfl, ?_, ?_⟩
      · rw [h1]
        unfold budget
        rw [h3, hp]
        simp [countSpawn]
      · unfold ncpNat
        rw [h4]
        simp
    | none =>
      rw [if_pos (by simp [hp])]
      have hfin := init_p2p_facts2 env s
      rcases hini : init_p2p_config env s with ⟨cj, sI, evsI⟩
      rw [hini] at hfin
      have hst : sI = s ∧ evsI = [] ∨ sI = s ∧ evsI = [Event.spawnNet] ∨
          sI = { s with network_child_process := true } ∧ evsI = [Event.spawnNet] := hfin
      obtain ⟨h1, h2, h3, h4⟩ := loadPhase2_p2p env { sI with p2p_config := some cj } evsI
      have hbud : budget (loadPhase2 env { sI with p2p_config := some cj } evsI).state = 0 := by
        unfold budget
        rw [h3]
        rfl
      have hbs : budget s = 1 := by unfold budget; rw [hp]; rfl
      refine ⟨?_, ?_, ?_⟩
      · show countKill (loadPhase2 env { sI with p2p_config := some cj } evsI).events = 0
        rw [h2]
        rcases hst with ⟨_, he⟩ | ⟨_, he⟩ | ⟨_, he⟩ <;> rw [he] <;> rfl
      · show countSpawn (loadPhase2 env { sI with p2p_config := some cj } evsI).events +
          budget (loadPhase2 env { sI with p2p_config := some cj } evsI).state ≤ budget s
        rw [h1, hbud, hbs]
        rcases hst with ⟨_, he⟩ | ⟨_, he⟩ | ⟨_, he⟩ <;> rw [he] <;> simp [countSpawn]
      · show ncpNat (loadPhase2 env { sI with p2p_config := some cj } evsI).state ≤
          ncpNat s + countSpawn (loadPhase2 env { sI with p2p_config := some cj } evsI).events
        unfold ncpNat
        rw [h4, h1]
        rcases hst with ⟨hs, he⟩ | ⟨hs, he⟩ | ⟨hs, he⟩ <;> rw [hs, he] <;>
          simp [countSpawn, ncpNat]

theorem dropContainer_counts (s : ContainerState) :
    countSpawn (dropContainer s).2 = 0 ∧
    budget (dropContainer s).1 = budget s ∧
    countKill (dropContainer s).2 + ncpNat (dropContainer s).1 = ncpNat s := by
  unfold dropContainer
  by_cases hn : s.network_child_process
  · rw [if_pos hn]
    refine ⟨rfl, rfl, ?_⟩
    unfold ncpNat
    simp [countKill, hn]
  · rw [if_neg hn]
    refine ⟨rfl, rfl, ?_⟩
    unfold ncpNat
    simp only [Bool.not_eq_true] at hn
    simp [countKill, hn]

theorem runOps_counts : ∀ (ops : List ContainerOp) (s : ContainerState),
    countSpawn (runOps ops s).2 + budget (runOps ops s).1 ≤ budget s ∧
    countKill (runOps ops s).2 + ncpNat (runOps ops s).1 ≤
      ncpNat s + countSpawn (runOps ops s).2 := by
  intro ops
  induction ops with
  | nil =>
    intro s
    constructor <;> simp [runOps, countSpawn, countKill]
  | cons op rest ih =>
    intro s
    cases op with
    | loadOp env =>
      have hl := load_p2p_facts env s
      obtain ⟨ih1, ih2⟩ := ih (load_config env s).state
      have hred : runOps (ContainerOp.loadOp env :: rest) s =
          ((runOps rest (load_config env s).state).1,
           (load_config env s).events ++ (runOps rest (load_config env s).state).2) := rfl
      rw [hred]
      simp only [countSpawn_append, countKill_append]
      obtain ⟨hl1, hl2, hl3⟩ := hl
      constructor <;> omega
    | dropOp =>
      obtain ⟨hd1, hd2, hd3⟩ := dropContainer_counts s
      obtain ⟨ih1, ih2⟩ := ih (dropContainer s).1
      have hred : runOps (ContainerOp.dropOp :: rest) s =
          ((runOps rest (dropContainer s).1).1,
           (dropContainer s).2 ++ (runOps rest (dropContainer s).1).2) := rfl
      rw [hred]
      simp only [countSpawn_append, countKill_append]
      constructor <;> omega

/-! ## Concrete fixtures -/

/-- Injected collaborators in which everything succeeds. -/
def envAllOk : Env :=
  { keyParse := fun _ => .ok 0,
    fileStorage := fun _ => .ok (),
    dnaLoader := fun _ => .ok "DNA",
    holochainNew := fun _ _ => .ok ⟨false, false, false, "e"⟩,
    ipcSpawn := fun _ => .ok "ipc-binding" }

/-- Injected collaborators whose DNA loader fails on `bad.dna`. -/
def envFailBad : Env :=
  { keyParse := fun _ => .ok 0,
    fileStorage := fun _ => .ok (),
    dnaLoader := fun f => if f = "bad.dna" then .error () else .ok "DNA",
    holochainNew := fun _ _ => .ok ⟨false, false, false, "e"⟩,
    ipcSpawn := fun _ => .ok "ipc-binding" }

/-- The three-instance bridge configuration of the spec's happy-load scenario:
bridges `B → A`, `C → B`, `C → A`. -/
def cfgW : Configuration :=
  { agents := [⟨"ag", "Agent", "addr", "kf"⟩],
    dnas := [⟨"dna-a", "a.dna", "h"⟩, ⟨"dna-b", "b.dna", "h"⟩, ⟨"dna-c", "c.dna", "h"⟩],
    instances := [⟨"A", "dna-a", "ag", .memory⟩, ⟨"B", "dna-b", "ag", .memory⟩,
      ⟨"C", "dna-c", "ag", .memory⟩],
    interfaces := [],
    bridges := [⟨"B", "A", "DPKI"⟩, ⟨"C", "B", "happ-store"⟩, ⟨"C", "A", "test-callee"⟩],
    network := none,
    logger := ⟨"debug"⟩ }

/-- Two instances, the second referencing the failing DNA file `bad.dna`. -/
def cfgTwo : Configuration :=
  { agents := [⟨"ag", "Agent", "addr", "kf"⟩],
    dnas := [⟨"dna-a", "a.dna", "h"⟩, ⟨"dna-b", "bad.dna", "h"⟩],
    instances := [⟨"A", "dna-a", "ag", .memory⟩, ⟨"B", "dna-b", "ag", .memory⟩],
    interfaces := [],
    bridges := [],
    network := none,
    logger := ⟨"debug"⟩ }

/-- Two instances sharing one DNA file reference. -/
def cfgShared : Configuration :=
  { agents := [⟨"ag", "Agent", "addr", "kf"⟩],
    dnas := [⟨"d", "shared.dna", "h"⟩],
    instances := [⟨"i1", "d", "ag", .memory⟩, ⟨"i2", "d", "ag", .memory⟩],
    interfaces := [],
    bridges := [],
    network := none,
    logger := ⟨"debug"⟩ }

/-- A configuration declaring no instances at all. -/
def cfgEmpty : Configuration :=
  { agents := [], dnas := [], instances := [], interfaces := [], bridges := [],
    network := none, logger := ⟨"debug"⟩ }

/-- A configuration with a single instance and a websocket interface. -/
def cfgOne : Configuration :=
  { agents := [⟨"ag", "Agent", "addr", "kf"⟩],
    dnas := [⟨"d", "one.dna", "h"⟩],
    instances := [⟨"I", "d", "ag", .memory⟩],
    interfaces := [⟨"ws", .websocket 8888, [⟨"I"⟩]⟩],
    bridges := [],
    network := none,
    logger := ⟨"debug"⟩ }

/-- A demo registry: a healthy instance, one whose start and stop fail, and a
trailing healthy instance. -/
def sDemo : ContainerState :=
  { instances := [("a", ⟨false, false, false, "ea"⟩), ("b", ⟨false, true, true, "boom"⟩),
      ("c", ⟨false, false, false, "ec"⟩)],
    config := cfgEmpty, interface_threads := [], signal_tx := false,
    p2p_config := none, network_child_process := false, next_worker := 0 }

/-- A container whose `ws` interface worker is already running. -/
def sIface : ContainerState :=
  { instances := [], config := cfgOne, interface_threads := [("ws", 0)], signal_tx := false,
    p2p_config := none, network_child_process := false, next_worker := 1 }

/-- A demo entry for the workflow fixtures. -/
def ewmDemo : EntryWithMeta := ⟨"entry", CrudStatus.live, none⟩

/-- A fetch environment whose local shard holds the demo entry everywhere. -/
def fenvLocal : FetchEnv :=
  { localGet := fun _ => .ok (some ewmDemo),
    netGet := fun _ => .ok none }

/-! ## Claim theorems -/

/-- C1: for every configuration accepted by `check_consistency`, every
bridge's callee id strictly precedes its caller id in the returned
topological order, and `load_config` constructs instances in exactly that
order: no registry lookup for a bridge callee ever fails (no `expect` panic
fires), and on success the registry lists the instance ids in the
topological order. -/
theorem c1_load_topological_order (cfg : Configuration) (order : List String)
    (hc : check_consistency cfg = .ok order) :
    (∀ b ∈ cfg.bridges, ∃ pre post, order = pre ++ b.caller_id :: post ∧ b.callee_id ∈ pre) ∧
    (∀ env s, s.config = cfg →
      (∀ m, (load_config env s).res ≠ .error (.fatal m)) ∧
      ((load_config env s).res = .ok () →
        (load_config env s).state.instances.map Prod.fst = order)) := by
  obtain ⟨hrefOk, _, hsort⟩ := check_parts cfg order hc
  constructor
  · intro b hb
    have hcaller := (refOk_bridge cfg hrefOk b hb).1
    have hmem : b.caller_id ∈ order := (order_mem_iff cfg order hsort b.caller_id).mpr hcaller
    obtain ⟨pre, post, hdecomp⟩ := List.append_of_mem hmem
    refine ⟨pre, post, hdecomp, ?_⟩
    exact order_decomp_deps cfg order pre post b.caller_id hsort hdecomp b.callee_id
      ((depsOf_mem cfg b.caller_id b.callee_id).mpr ⟨b, hb, rfl, rfl⟩)
  · intro env s hcfg
    constructor
    · exact load_no_fatal env s order (by rw [hcfg]; exact hc)
    · intro h
      exact (load_ok_spec env s order (by rw [hcfg]; exact hc) h).1

/-- C1 witness: the spec's happy-load configuration is accepted with the
order `[A, B, C]`, and the theorem applies to it. -/
theorem c1_load_topological_order_witness :
    check_consistency cfgW = .ok ["A", "B", "C"] ∧
    ((∀ b ∈ cfgW.bridges, ∃ pre post,
        ["A", "B", "C"] = pre ++ b.caller_id :: post ∧ b.callee_id ∈ pre) ∧
     (∀ env s, s.config = cfgW →
       (∀ m, (load_config env s).res ≠ .error (.fatal m)) ∧
       ((load_config env s).res = .ok () →
         (load_config env s).state.instances.map Prod.fst = ["A", "B", "C"]))) :=
  ⟨by decide, c1_load_topological_order cfgW ["A", "B", "C"] (by decide)⟩

/-- C2 counterexample: with the loader failing on instance `B`'s file,
`load_config` returns the error naming `B` and its cause, but the registry
still holds instance `A` from the failed attempt — it is not discarded. -/
theorem c2_counterexample_partial_registry :
    (load_config envFailBad (from_config cfgTwo)).res =
      .error (.str
        "Error while trying to create instance \"B\": Could not load DNA file \"bad.dna\"") ∧
    (load_config envFailBad (from_config cfgTwo)).state.instances.map Prod.fst = ["A"] := by
  constructor <;> decide

/-- C2 (amended): on every container state whose configuration is accepted,
`load_config` either succeeds with the registry holding exactly the
topological order, or an instance construction fails and the error names that
instance id and its cause while the registry retains exactly the instances
constructed before the failure (the prefix of the topological order) — they
are not discarded — or (the only other failure mode, which is not an
instance-construction failure) a stop error from shutting down the previous
registry surfaces verbatim. -/
theorem c2_amended_error_and_partial_registry (env : Env) (s : ContainerState)
    (order : List String) (hc : check_consistency s.config = .ok order) :
    ((load_config env s).res = .ok () ∧
      (load_config env s).state.instances.map Prod.fst = order) ∨
    (∃ k id c, order.get? k = some id ∧
      (load_config env s).res =
        .error (.str ("Error while trying to create instance \"" ++ id ++ "\": " ++ c)) ∧
      (load_config env s).state.instances.map Prod.fst = order.take k) ∨
    (∃ m, (stopAllList s.instances).1 = some m ∧
      (load_config env s).res = .error (.str m)) := by
  cases hstop : (stopAllList s.instances).1 with
  | some m =>
    right; right
    obtain ⟨s1, evs1, heq, h1c, h1i, _⟩ := load_reduce env s order hc
    refine ⟨m, rfl, ?_⟩
    rw [heq]
    exact loadPhase2_stop_err env s1 evs1 m (by rw [h1i]; exact hstop)
  | none =>
    cases hres : (load_config env s).res with
    | ok u =>
      left
      cases u
      exact ⟨rfl, (load_ok_spec env s order hc hres).1⟩
    | error e =>
      cases e with
      | fatal m => exact absurd hres (load_no_fatal env s order hc m)
      | str m =>
        right; left
        obtain ⟨k, id, c, hget, hm, hkeys⟩ := load_err_spec env s order hstop hc m hres
        refine ⟨k, id, c, hget, ?_, hkeys⟩
        rw [hm]

/-- C2 amended witness: the amended claim applied to the two-instance
configuration with the failing loader. -/
theorem c2_amended_witness :
    ((load_config envFailBad (from_config cfgTwo)).res = .ok () ∧
      (load_config envFailBad (from_config cfgTwo)).state.instances.map Prod.fst =
        ["A", "B"]) ∨
    (∃ k id c, ["A", "B"].get? k = some id ∧
      (load_config envFailBad (from_config cfgTwo)).res =
        .error (.str ("Error while trying to create instance \"" ++ id ++ "\": " ++ c)) ∧
      (load_config envFailBad (from_config cfgTwo)).state.instances.map Prod.fst =
        ["A", "B"].take k) ∨
    (∃ m, (stopAllList (from_config cfgTwo).instances).1 = some m ∧
      (load_config envFailBad (from_config cfgTwo)).res = .error (.str m)) :=
  c2_amended_error_and_partial_registry envFailBad (from_config cfgTwo) ["A", "B"]
    (by decide)

/-- C3 counterexample: two instances sharing the file `shared.dna` cause two
loader invocations for that file in a single `load_config` call, refuting
"at most once per distinct module file reference". -/
theorem c3_counterexample_two_loads_one_file :
    countLoadsOf "shared.dna" (load_config envAllOk (from_config cfgShared)).events = 2 := by
  decide

/-- C3 (amended): the injected loader is invoked exactly once per instance in
topological order — the loader events of a successful `load_config` are
exactly one per instance id of the order, each for that instance's DNA file
(so instances sharing a file produce one invocation each, not one total). -/
theorem c3_amended_loader_once_per_instance (env : Env) (s : ContainerState)
    (order : List String) (hc : check_consistency s.config = .ok order)
    (hok : (load_config env s).res = .ok ()) :
    (load_config env s).events.filter isLoadB = loadEventsOf s.config order :=
  (load_ok_spec env s order hc hok).2

/-- C3 amended witness: on the shared-file configuration the loader events of
the successful load are one per instance. -/
theorem c3_amended_witness :
    (load_config envAllOk (from_config cfgShared)).events.filter isLoadB =
      loadEventsOf (from_config cfgShared).config ["i1", "i2"] :=
  c3_amended_loader_once_per_instance envAllOk (from_config cfgShared) ["i1", "i2"]
    (by decide) (by decide)

/-- C4: over a whole container lifetime — any sequence of `load_config` calls
and drops starting from `from_config` — the external P2P helper is spawned at
most once and the kill handle is invoked at most once. -/
theorem c4_spawn_once_kill_once (cfg : Configuration) (ops : List ContainerOp) :
    countSpawn (lifetimeEvents cfg ops) ≤ 1 ∧ countKill (lifetimeEvents cfg ops) ≤ 1 := by
  obtain ⟨h1, h2⟩ := runOps_counts ops (from_config cfg)
  have hb : budget (from_config cfg) = 1 := rfl
  have hn : ncpNat (from_config cfg) = 0 := rfl
  unfold lifetimeEvents
  constructor <;> omega

/-- C5 counterexample: on a configuration with zero instances, `load_config`
succeeds, yet attaching a signal sink afterwards still succeeds (no panic),
refuting "for every container on which load has already succeeded, attempting
to attach a signal sink fails". -/
theorem c5_counterexample_attach_after_load :
    (load_config envAllOk (from_config cfgEmpty)).res = .ok () ∧
    (with_signal_channel (load_config envAllOk (from_config cfgEmpty)).state).isSome = true := by
  constructor <;> decide

/-- C5 (amended): `with_signal_channel` checks registry emptiness, not load
history: it panics after a successful load of a configuration with at least
one instance, and succeeds on every container whose registry is empty (in
particular before the first successful load). -/
theorem c5_amended_signal_sink_guard (env : Env) (s : ContainerState)
    (order : List String) (hc : check_consistency s.config = .ok order)
    (hne : order ≠ []) (hok : (load_config env s).res = .ok ()) :
    with_signal_channel (load_config env s).state = none ∧
    (∀ s', s'.instances = [] → (with_signal_channel s').isSome = true) := by
  constructor
  · have hk := (load_ok_spec env s order hc hok).1
    cases hcase : (load_config env s).state.instances with
    | nil =>
      rw [hcase] at hk
      exact absurd hk.symm hne
    | cons p l =>
      unfold with_signal_channel
      rw [hcase]
      rfl
  · intro s' h
    simp [with_signal_channel, h]

/-- C5 amended witness: the amended claim applied to the one-instance
configuration after its successful load, and to an arbitrary empty registry. -/
theorem c5_amended_witness :
    with_signal_channel (load_config envAllOk (from_config cfgOne)).state = none ∧
    (∀ s', s'.instances = [] → (with_signal_channel s').isSome = true) :=
  c5_amended_signal_sink_guard envAllOk (from_config cfgOne) ["I"] (by decide)
    (by decide) (by decide)

/-! ## Start / stop folds -/

theorem startAllList_ok (l : List (String × Holochain))
    (h : ∀ p ∈ l, p.2.start_fails = false) :
    startAllList l = (none, l.map (fun p => (p.1, { p.2 with active := true }))) := by
  induction l with
  | nil => rfl
  | cons p rest ih =>
    obtain ⟨id, hc⟩ := p
    have h1 : hc.start_fails = false := h (id, hc) (List.mem_cons_self _ _)
    have ih' := ih (fun q hq => h q (List.mem_cons_of_mem _ hq))
    simp [startAllList, Holochain.start, h1, ih']

theorem startAllList_fail (l1 : List (String × Holochain)) (x : String × Holochain)
    (l2 : List (String × Holochain))
    (h1 : ∀ p ∈ l1, p.2.start_fails = false) (hx : x.2.start_fails = true) :
    startAllList (l1 ++ x :: l2) =
      (some x.2.err, l1.map (fun p => (p.1, { p.2 with active := true })) ++ x :: l2) := by
  induction l1 with
  | nil =>
    obtain ⟨id, hc⟩ := x
    have hx' : hc.start_fails = true := hx
    simp only [List.nil_append, List.map_nil]
    simp [startAllList, Holochain.start, hx']
  | cons p rest ih =>
    obtain ⟨id, hc⟩ := p
    have hp1 : hc.start_fails = false := h1 (id, hc) (List.mem_cons_self _ _)
    have ih' := ih (fun q hq => h1 q (List.mem_cons_of_mem _ hq))
    simp [startAllList, Holochain.start, hp1, ih']

theorem stopAllList_ok (l : List (String × Holochain))
    (h : ∀ p ∈ l, p.2.stop_fails = false) :
    stopAllList l = (none, l.map (fun p => (p.1, { p.2 with active := false }))) := by
  induction l with
  | nil => rfl
  | cons p rest ih =>
    obtain ⟨id, hc⟩ := p
    have h1 : hc.stop_fails = false := h (id, hc) (List.mem_cons_self _ _)
    have ih' := ih (fun q hq => h q (List.mem_cons_of_mem _ hq))
    simp [stopAllList, Holochain.stop, h1, ih']

theorem stopAllList_fail (l1 : List (String × Holochain)) (x : String × Holochain)
    (l2 : List (String × Holochain))
    (h1 : ∀ p ∈ l1, p.2.stop_fails = false) (hx : x.2.stop_fails = true) :
    stopAllList (l1 ++ x :: l2) =
      (some x.2.err, l1.map (fun p => (p.1, { p.2 with active := false })) ++ x :: l2) := by
  induction l1 with
  | nil =>
    obtain ⟨id, hc⟩ := x
    have hx' : hc.stop_fails = true := hx
    simp only [List.nil_append, List.map_nil]
    simp [stopAllList, Holochain.stop, hx']
  | cons p rest ih =>
    obtain ⟨id, hc⟩ := p
    have hp1 : hc.stop_fails = false := h1 (id, hc) (List.mem_cons_self _ _)
    have ih' := ih (fun q hq => h1 q (List.mem_cons_of_mem _ hq))
    simp [stopAllList, Holochain.stop, hp1, ih']

/-- C6: `start_all_instances` and `stop_all_instances` fold `start()` /
`stop()` over every registry entry in iteration order; when every call
succeeds all instances transition, and the first failure aborts the fold and
surfaces as the result, with the instances before the failing one transitioned
(no rollback) and the rest untouched. -/
theorem c6_start_stop_fold (s : ContainerState) :
    ((∀ p ∈ s.instances, p.2.start_fails = false) →
      (start_all_instances s).1 = .ok () ∧
      (start_all_instances s).2.instances =
        s.instances.map (fun p => (p.1, { p.2 with active := true }))) ∧
    (∀ l1 x l2, s.instances = l1 ++ x :: l2 →
      (∀ p ∈ l1, p.2.start_fails = false) → x.2.start_fails = true →
      (start_all_instances s).1 = .error x.2.err ∧
      (start_all_instances s).2.instances =
        l1.map (fun p => (p.1, { p.2 with active := true })) ++ x :: l2) ∧
    ((∀ p ∈ s.instances, p.2.stop_fails = false) →
      (stop_all_instances s).1 = .ok () ∧
      (stop_all_instances s).2.instances =
        s.instances.map (fun p => (p.1, { p.2 with active := false }))) ∧
    (∀ l1 x l2, s.instances = l1 ++ x :: l2 →
      (∀ p ∈ l1, p.2.stop_fails = false) → x.2.stop_fails = true →
      (stop_all_instances s).1 = .error x.2.err ∧
      (stop_all_instances s).2.instances =
        l1.map (fun p => (p.1, { p.2 with active := false })) ++ x :: l2) := by
  refine ⟨?_, ?_, ?_, ?_⟩
  · intro h
    have hthis := startAllList_ok s.instances h
    simp only [start_all_instances]
    rw [hthis]
    exact ⟨rfl, rfl⟩
  · intro l1 x l2 hsplit hok hfail
    have hthis := startAllList_fail l1 x l2 hok hfail
    simp only [start_all_instances]
    rw [hsplit, hthis]
    exact ⟨rfl, rfl⟩
  · intro h
    have hthis := stopAllList_ok s.instances h
    simp only [stop_all_instances]
    rw [hthis]
    exact ⟨rfl, rfl⟩
  · intro l1 x l2 hsplit hok hfail
    have hthis := stopAllList_fail l1 x l2 hok hfail
    simp only [stop_all_instances]
    rw [hsplit, hthis]
    exact ⟨rfl, rfl⟩

/-- C6 witness: on the demo registry the fold surfaces the middle instance's
start error, the first instance remains started and the rest are untouched. -/
theorem c6_start_stop_fold_witness :
    (start_all_instances sDemo).1 =
      .error (("b", (⟨false, true, true, "boom"⟩ : Holochain)) : String × Holochain).2.err ∧
    (start_all_instances sDemo).2.instances =
      [("a", (⟨false, false, false, "ea"⟩ : Holochain))].map
          (fun p => (p.1, { p.2 with active := true })) ++
        ("b", ⟨false, true, true, "boom"⟩) :: [("c", ⟨false, false, false, "ec"⟩)] :=
  (c6_start_stop_fold sDemo).2.1 [("a", ⟨false, false, false, "ea"⟩)]
    ("b", ⟨false, true, true, "boom"⟩) [("c", ⟨false, false, false, "ec"⟩)]
    rfl (by decide) rfl

/-- C7: shutting down twice is idempotent: after a successful `shutdown` the
registry is empty, and a second `shutdown` succeeds leaving the state
unchanged. -/
theorem c7_shutdown_idempotent (s s₁ : ContainerState)
    (h : shutdown s = (.ok (), s₁)) :
    shutdown s₁ = (.ok (), s₁) ∧ s₁.instances = [] := by
  have hs1 : s₁.instances = [] := by
    unfold shutdown at h
    rcases hsa : stop_all_instances s with ⟨r, s2⟩
    rw [hsa] at h
    cases r with
    | error e => simp at h
    | ok u =>
      simp only [Prod.mk.injEq] at h
      rw [← h.2]
  have hcollapse : { s₁ with instances := [] } = s₁ := by
    cases s₁ with
    | mk i c it st p2 ncp nw =>
      simp only [] at hs1
      rw [hs1]
  constructor
  · rw [shutdown_empty s₁ hs1, hcollapse]
  · exact hs1

/-- The state of the C7 demo container after its first shutdown. -/
def sC7 : ContainerState :=
  { instances := [("a", ⟨true, false, false, "ea"⟩)], config := cfgEmpty,
    interface_threads := [], signal_tx := false, p2p_config := none,
    network_child_process := false, next_worker := 0 }

/-- The C7 demo container with its registry cleared. -/
def sC7done : ContainerState := { sC7 with instances := [] }

/-- C7 witness: a container with one running instance shuts down successfully,
and the theorem applies to that run. -/
theorem c7_shutdown_idempotent_witness :
    shutdown sC7 = (.ok (), sC7done) ∧
    (shutdown sC7done = (.ok (), sC7done) ∧ sC7done.instances = []) :=
  ⟨by decide, c7_shutdown_idempotent sC7 sC7done (by decide)⟩

/-- C8: given an interface id that resolves in the configuration, starting it
while a worker with that id is running fails with the already-started error
and leaves the container (and its worker map) unchanged; starting it while it
is not running succeeds and appends exactly one new worker under that id. -/
theorem c8_interface_start (s : ContainerState) (id : String)
    (ic : InterfaceConfiguration) (hfind : interface_by_id s.config id = some ic) :
    (id ∈ s.interface_threads.map Prod.fst →
      start_interface_by_id s id =
        (.error ("Interface " ++ id ++ " already started!"), s)) ∧
    (id ∉ s.interface_threads.map Prod.fst →
      start_interface_by_id s id =
        (.ok (), { s with
            interface_threads := s.interface_threads ++ [(id, s.next_worker)],
            next_worker := s.next_worker + 1 })) := by
  have hicid : ic.id = id := by
    have h2 := List.find?_some hfind
    simpa using h2
  constructor
  · intro hmem
    have hm : memB id (s.interface_threads.map Prod.fst) = true := (memB_iff _ _).mpr hmem
    unfold start_interface_by_id start_interface
    simp [hfind, hicid, hm]
  · intro hmem
    have hm : memB id (s.interface_threads.map Prod.fst) = false := by
      rw [Bool.eq_false_iff]
      intro hcontra
      exact hmem ((memB_iff _ _).mp hcontra)
    unfold start_interface_by_id start_interface
    simp [hfind, hicid, hm]

/-- C8 witness: starting the already-running `ws` interface fails without
replacing its worker, and starting it on a fresh container appends one new
worker. -/
theorem c8_interface_start_witness :
    start_interface_by_id sIface "ws" =
      (.error ("Interface " ++ "ws" ++ " already started!"), sIface) ∧
    start_interface_by_id (from_config cfgOne) "ws" =
      (.ok (), { (from_config cfgOne) with
          interface_threads := (from_config cfgOne).interface_threads ++
            [("ws", (from_config cfgOne).next_worker)],
          next_worker := (from_config cfgOne).next_worker + 1 }) :=
  ⟨(c8_interface_start sIface "ws" ⟨"ws", .websocket 8888, [⟨"I"⟩]⟩ (by decide)).1
      (by decide),
   (c8_interface_start (from_config cfgOne) "ws" ⟨"ws", .websocket 8888, [⟨"I"⟩]⟩
      (by decide)).2 (by decide)⟩

/-- C9: in the get-entry workflow the network fetch is strictly a fallback:
a local hit is returned without consulting the network, the network is
consulted exactly when the local lookup returns no result (and its result is
returned verbatim), and any network fetch in the trace implies the local
lookup returned no result. -/
theorem c9_network_strictly_fallback (env : FetchEnv) (a : String) :
    (∀ e, env.localGet a = .ok (some e) →
      get_entry_with_meta_workflow env a = (.ok (some e), [FetchEvent.localLookup a])) ∧
    (env.localGet a = .ok none →
      get_entry_with_meta_workflow env a =
        (env.netGet a, [FetchEvent.localLookup a, FetchEvent.networkFetch a])) ∧
    (∀ b, FetchEvent.networkFetch b ∈ (get_entry_with_meta_workflow env a).2 →
      env.localGet a = .ok none) := by
  refine ⟨?_, ?_, ?_⟩
  · intro e h
    simp [get_entry_with_meta_workflow, h]
  · intro h
    simp [get_entry_with_meta_workflow, h]
  · intro b hb
    cases hl : env.localGet a with
    | error e =>
      rw [get_entry_with_meta_workflow, hl] at hb
      simp at hb
    | ok o =>
      cases o with
      | none => rfl
      | some e =>
        rw [get_entry_with_meta_workflow, hl] at hb
        simp at hb

/-- C9 witness: with the local shard holding the demo entry, the workflow
returns it with only a local lookup in the trace. -/
theorem c9_network_strictly_fallback_witness :
    get_entry_with_meta_workflow fenvLocal "addr" =
      (.ok (some ewmDemo), [FetchEvent.localLookup "addr"]) :=
  (c9_network_strictly_fallback fenvLocal "addr").1 ewmDemo rfl

/-- C10: when the options request sources or header, the workflow returns the
generic not-implemented error immediately, with an empty fetch trace — no
local lookup, no network fetch, and the history loop is never entered. -/
theorem c10_sources_header_not_implemented (env : FetchEnv) (args : GetEntryArgs)
    (fuel : Nat) (h : args.options.sources = true ∨ args.options.header = true) :
    get_entry_result_workflow env args fuel =
      some (.error "sources and header option not implemented", []) := by
  unfold get_entry_result_workflow
  rcases h with h | h <;> simp [h]

/-- C10 witness: a request with the sources option set is rejected
immediately with an empty trace. -/
theorem c10_sources_header_not_implemented_witness :
    get_entry_result_workflow fenvLocal
      ⟨"addr", ⟨StatusRequestKind.latest, true, false⟩⟩ 5 =
      some (.error "sources and header option not implemented", []) :=
  c10_sources_header_not_implemented fenvLocal
    ⟨"addr", ⟨StatusRequestKind.latest, true, false⟩⟩ 5 (Or.inl rfl)
